import Mathlib

/-!
Shallow embedding of the approval-governance core of auth-for-agents
(rule engine, approval ledger, credential store, agent auth), with theorems
checking the specification's claims against it.

Conventions of the embedding:
* JS values flowing through the rule engine are modelled by `JsonVal`
  (string / number / boolean / null / array / object).
* `undefined` is `Option.none`; a stored JSON `null` is `some JsonVal.null`.
* Timestamps are `Int` epoch milliseconds.
* The database is explicit state: a table is a `List` of rows, and each
  Supabase query is translated into the corresponding pure list operation
  (filter / sort / conditional map).  The outcome of a fallible external
  step (backing read, provider refresh call) is passed in as an argument.
* The JS regular-expression engine used by the `matches` operator and the
  bcrypt comparison used by agent auth are external libraries; they enter
  the embedding as function parameters (`rt`, `verify`).
-/

set_option autoImplicit false
set_option linter.unusedVariables false
set_option linter.unnecessarySeqFocus false

namespace AuthForAgents

/-! ## Kernel-reducible string helpers

Plain re-implementations of the string primitives the source uses
(`split('.')`, `toLowerCase`, `includes`, `startsWith`, `endsWith`, array
indexing), written by structural recursion over the character list so that
concrete runs reduce inside the kernel. -/

/-- JS `String.prototype.includes` on character lists. -/
def listIncludes (sub : List Char) : List Char → Bool
  | [] => sub.isPrefixOf ([] : List Char)
  | c :: rest => sub.isPrefixOf (c :: rest) || listIncludes sub rest

/-- JS `s.includes(sub)`. -/
def strIncludes (s sub : String) : Bool :=
  listIncludes sub.toList s.toList

/-- JS `s.startsWith(sub)`. -/
def strStartsWith (s sub : String) : Bool :=
  sub.toList.isPrefixOf s.toList

/-- JS `s.endsWith(sub)`. -/
def strEndsWith (s sub : String) : Bool :=
  sub.toList.isSuffixOf s.toList

/-- ASCII lowercasing, as JS `toLowerCase` behaves on the ASCII range. -/
def strToLower (s : String) : String :=
  ⟨s.toList.map Char.toLower⟩

/-- Splitting on `'.'`, as JS `path.split('.')`. -/
def splitOnDot : List Char → List Char → List (List Char)
  | [], acc => [acc.reverse]
  | c :: rest, acc =>
      if c = '.' then acc.reverse :: splitOnDot rest []
      else splitOnDot rest (c :: acc)

/-- The dot-separated segments of a path. -/
def splitPath (path : String) : List String :=
  (splitOnDot path.toList []).map (fun cs => String.mk cs)

/-- Decimal parse of an array-index string. -/
def strToIndex (s : String) : Option Nat :=
  if s.toList.isEmpty then none
  else if s.toList.all (fun c => c.isDigit) then
    some (s.toList.foldl (fun n c => n * 10 + (c.toNat - 48)) 0)
  else none

/-- Comma-joining, as JS `Array.prototype.toString`. -/
def joinComma : List String → String
  | [] => ""
  | [s] => s
  | s :: rest => s ++ "," ++ joinComma rest

/-! ## JSON-like payload documents -/

inductive JsonVal where
  | str (s : String)
  | num (n : Int)
  | bool (b : Bool)
  | null
  | arr (elems : List JsonVal)
  | obj (fields : List (String × JsonVal))

mutual

/-- JS `String(value)` coercion, as applied to a payload field value.
Arrays join their elements with commas (null elements become empty),
objects print as "[object Object]". -/
def jsToString : JsonVal → String
  | .str s => s
  | .num n => toString n
  | .bool b => cond b "true" "false"
  | .null => "null"
  | .arr xs => joinComma (jsArrStrings xs)
  | .obj _ => "[object Object]"

def jsArrStrings : List JsonVal → List String
  | [] => []
  | .null :: rest => "" :: jsArrStrings rest
  | v :: rest => jsToString v :: jsArrStrings rest

end

/-- JS member access `current[part]`: object-field lookup, or numeric
indexing into an array; any other base value yields `undefined`. -/
def jsIndex : JsonVal → String → Option JsonVal
  | .obj fields, part => (fields.find? (fun p => p.fst == part)).map Prod.snd
  | .arr xs, part =>
      match strToIndex part with
      | some i => xs.get? i
      | none => none
  | _, _ => none

/-- `getFieldValue` from `rule-engine.ts`: walk the dot-separated path,
returning `undefined` as soon as the current value is `undefined`/`null`. -/
def getFieldValue (obj : JsonVal) (path : String) : Option JsonVal :=
  (splitPath path).foldl
    (fun current part =>
      match current with
      | none => none
      | some .null => none
      | some v => jsIndex v part)
    (some obj)

/-! ## Rule engine (`src/lib/approval/rule-engine.ts`) -/

inductive PatternOp where
  | equals
  | not_equals
  | contains
  | starts_with
  | ends_with
  | matches
  deriving DecidableEq

structure PayloadPattern where
  field : String
  op : PatternOp
  value : String
  case_sensitive : Bool := false
  deriving DecidableEq

structure RuleConditions where
  agent_ids : Option (List String) := none
  action_types : Option (List String) := none
  payload_patterns : Option (List PayloadPattern) := none
  service_provider_ids : Option (List String) := none
  deriving DecidableEq

structure ApprovalRule where
  id : String
  owner_id : String
  agent_id : Option String := none
  name : String := ""
  is_active : Bool := true
  priority : Int := 0
  conditions : RuleConditions := {}
  require_approval : Bool := true
  auto_approve_after_hours : Option Int := none
  created_at : Int := 0
  deriving DecidableEq

structure ActionContext where
  agent_id : String
  action_type : String
  action_payload : JsonVal
  service_connection_id : Option String := none
  service_provider_id : Option String := none

/-- `matchesPayloadPattern` from `rule-engine.ts`.  `rt pat s cs` stands for
`new RegExp(pat, cs ? '' : 'i').test(s)` with an invalid expression caught
and treated as a non-match. -/
def patternOpTest (rt : String → String → Bool → Bool)
    (pattern : PayloadPattern) (stringValue patternValue : String) : Bool :=
  match pattern.op with
      | .equals =>
          (if pattern.case_sensitive then stringValue else strToLower stringValue) ==
            (if pattern.case_sensitive then patternValue else strToLower patternValue)
      | .not_equals =>
          (if pattern.case_sensitive then stringValue else strToLower stringValue) !=
            (if pattern.case_sensitive then patternValue else strToLower patternValue)
      | .contains =>
          strIncludes
            (if pattern.case_sensitive then stringValue else strToLower stringValue)
            (if pattern.case_sensitive then patternValue else strToLower patternValue)
      | .starts_with =>
          strStartsWith
            (if pattern.case_sensitive then stringValue else strToLower stringValue)
            (if pattern.case_sensitive then patternValue else strToLower patternValue)
      | .ends_with =>
          strEndsWith
            (if pattern.case_sensitive then stringValue else strToLower stringValue)
            (if pattern.case_sensitive then patternValue else strToLower patternValue)
      | .matches => rt patternValue stringValue pattern.case_sensitive

/-- `matchesPayloadPattern` body: an `undefined`/`null` resolved value never
matches; otherwise the value is coerced to a string and compared per the
operator, with the pattern value lowercased up front when case-insensitive. -/
def matchesPayloadPattern (rt : String → String → Bool → Bool)
    (payload : JsonVal) (pattern : PayloadPattern) : Bool :=
  match getFieldValue payload pattern.field with
  | none => false
  | some .null => false
  | some v =>
      patternOpTest rt pattern (jsToString v)
        (if pattern.case_sensitive then pattern.value else strToLower pattern.value)

/-- `doesRuleMatch` from `rule-engine.ts`, with the early `return false`
branches rendered as nested conditionals in the source order. -/
def doesRuleMatch (rt : String → String → Bool → Bool)
    (rule : ApprovalRule) (context : ActionContext) : Bool :=
  let conditions := rule.conditions
  if (match conditions.agent_ids with
      | some ids => decide (ids.length > 0) && !(ids.contains context.agent_id)
      | none => false) then false
  else if (match conditions.action_types with
      | some ids => decide (ids.length > 0) && !(ids.contains context.action_type)
      | none => false) then false
  else if (match conditions.service_provider_ids with
      | some ids => decide (ids.length > 0) &&
          (match context.service_provider_id with
           | some sp => sp == "" || !(ids.contains sp)
           | none => true)
      | none => false) then false
  else if (match conditions.payload_patterns with
      | some pats => decide (pats.length > 0) &&
          pats.any (fun p => !(matchesPayloadPattern rt context.action_payload p))
      | none => false) then false
  else true

/-- The order the backing query imposes on the fetched rules:
priority descending, then `created_at` ascending. -/
def ruleOrder (r1 r2 : ApprovalRule) : Prop :=
  r1.priority > r2.priority ∨
    (r1.priority = r2.priority ∧ r1.created_at ≤ r2.created_at)

instance : DecidableRel ruleOrder := fun r1 r2 => by
  unfold ruleOrder; exact inferInstance

instance : IsTotal ApprovalRule ruleOrder :=
  ⟨by intro a b; unfold ruleOrder; omega⟩

instance : IsTrans ApprovalRule ruleOrder :=
  ⟨by intro a b c hab hbc; unfold ruleOrder at *; omega⟩

/-- The backing read of `evaluateRules`: active rules of this owner that are
unscoped or scoped to this agent, ordered by `(priority desc, created_at asc)`. -/
def fetchedRules (db : List ApprovalRule) (ownerId agentId : String) :
    List ApprovalRule :=
  List.insertionSort ruleOrder
    (db.filter (fun r =>
      r.owner_id == ownerId && r.is_active &&
        (r.agent_id.isNone || r.agent_id == some agentId)))

structure EvalResult where
  requiresApproval : Bool
  matchedRule : Option ApprovalRule
  deriving DecidableEq

/-- The scan loop of `evaluateRules`: first matching rule wins. -/
def scanRules (rt : String → String → Bool → Bool)
    (rules : List ApprovalRule) (context : ActionContext) : EvalResult :=
  match rules with
  | [] => ⟨false, none⟩
  | rule :: rest =>
      if doesRuleMatch rt rule context then ⟨rule.require_approval, some rule⟩
      else scanRules rt rest context

/-- `evaluateRules` from `rule-engine.ts`.  `readError` is the outcome of the
backing read; the source folds it into the same branch as the empty rule set
(`if (error || !rules || rules.length === 0) return { requiresApproval: false, ... }`). -/
def evaluateRules (rt : String → String → Bool → Bool) (readError : Bool)
    (db : List ApprovalRule) (ownerId : String) (context : ActionContext) :
    EvalResult :=
  let rules := fetchedRules db ownerId context.agent_id
  if readError || rules.length == 0 then ⟨false, none⟩
  else scanRules rt rules context

/-! ## Approval ledger (`src/lib/approval/approval-manager.ts`) -/

inductive ApprovalStatus where
  | pending
  | approved
  | rejected
  | expired
  | cancelled
  deriving DecidableEq

inductive ApprovalPriority where
  | low
  | medium
  | high
  | urgent
  deriving DecidableEq

/-- JS `v || dflt` for an optional string (empty string is falsy). -/
def jsStrOr (v : Option String) (dflt : String) : String :=
  match v with
  | some s => if s == "" then dflt else s
  | none => dflt

/-- JS `v || null` for an optional string (empty string becomes null). -/
def jsStrOrNull (v : Option String) : Option String :=
  match v with
  | some s => if s == "" then none else some s
  | none => none

/-- JS `v || dflt` for an optional integer (zero is falsy). -/
def jsIntOr (v : Option Int) (dflt : Int) : Int :=
  match v with
  | some n => if n == 0 then dflt else n
  | none => dflt

/-- `determinePriority` from `rule-engine.ts`.  The recipient string is
`payload.to || ''` (the route always supplies a string there). -/
def determinePriority (actionType : String) (payload : JsonVal) : ApprovalPriority :=
  if actionType == "gmail.send" then
    let recipient :=
      match jsIndex payload "to" with
      | some (.str s) => s
      | _ => ""
    if strIncludes recipient "@gmail.com" || strIncludes recipient "@googlemail.com" then
      .medium
    else .high
  else if strIncludes actionType "modify" || strIncludes actionType "delete" then .high
  else if actionType == "document.download" then .medium
  else if strIncludes actionType "read" || strIncludes actionType "query" then .low
  else .medium

/-- JS template interpolation of a possibly-absent payload field. -/
def jsInterp (v : Option JsonVal) : String :=
  match v with
  | none => "undefined"
  | some x => jsToString x

/-- JS `field || dflt` interpolated as a string (falsy values fall back). -/
def jsInterpOr (v : Option JsonVal) (dflt : String) : String :=
  match v with
  | none => dflt
  | some .null => dflt
  | some (.str s) => if s == "" then dflt else s
  | some (.bool b) => if b then "true" else dflt
  | some (.num n) => if n == 0 then dflt else toString n
  | some x => jsToString x

/-- `generateActionSummary` from `rule-engine.ts`. -/
def generateActionSummary (actionType : String) (payload : JsonVal) : String :=
  if actionType == "gmail.send" then
    "Send email to " ++ jsInterp (jsIndex payload "to") ++ " with subject \"" ++
      jsInterp (jsIndex payload "subject") ++ "\""
  else if actionType == "gmail.modify" then
    "Modify email " ++ jsInterp (jsIndex payload "message_id") ++ ": " ++
      jsInterp (jsIndex payload "operation")
  else if actionType == "gmail.read" then
    "Read emails matching: " ++ jsInterpOr (jsIndex payload "query") "all"
  else if actionType == "document.query" then
    "Query document \"" ++ jsInterp (jsIndex payload "document_id") ++ "\" with: " ++
      jsInterp (jsIndex payload "query")
  else if actionType == "document.download" then
    "Download document \"" ++ jsInterp (jsIndex payload "document_id") ++ "\""
  else
    "Perform action: " ++ actionType

structure PendingApproval where
  id : String
  agent_id : String
  service_connection_id : Option String := none
  rule_id : Option String := none
  owner_id : String
  action_type : String
  action_payload : JsonVal := .null
  action_summary : String := ""
  status : ApprovalStatus := .pending
  priority : ApprovalPriority := .medium
  resolved_by : Option String := none
  resolved_at : Option Int := none
  resolution_comment : Option String := none
  expires_at : Option Int := none
  created_at : Int := 0

/-- One `approval_history` row; `metadata` carries the
`{ priority, expires_at }` object written by `createApproval`. -/
structure HistoryEntry where
  approval_id : String
  user_id : String
  action : String
  comment : Option String := none
  metadata : Option (ApprovalPriority × Option Int) := none
  deriving DecidableEq

structure LedgerState where
  approvals : List PendingApproval
  history : List HistoryEntry

/-- Row predicate of the conditional updates:
`.eq('id', approvalId).eq('status', 'pending')`. -/
def isPendingWithId (approvalId : String) (a : PendingApproval) : Bool :=
  a.id == approvalId && a.status == ApprovalStatus.pending

/-- A Supabase `update(...).eq('id', id).eq('status', 'pending').select()`:
rewrites every matching row and reports the rewritten rows. -/
def updateWherePending (table : List PendingApproval) (approvalId : String)
    (f : PendingApproval → PendingApproval) :
    List PendingApproval × List PendingApproval :=
  (table.map (fun a => if isPendingWithId approvalId a then f a else a),
   (table.filter (isPendingWithId approvalId)).map f)

/-- The column values `approveApproval` writes. -/
def stampApproved (userId : String) (comment : Option String) (now : Int)
    (a : PendingApproval) : PendingApproval :=
  { a with status := .approved, resolved_by := some userId,
           resolved_at := some now, resolution_comment := jsStrOrNull comment }

/-- The column values `rejectApproval` writes. -/
def stampRejected (userId : String) (reason : Option String) (now : Int)
    (a : PendingApproval) : PendingApproval :=
  { a with status := .rejected, resolved_by := some userId,
           resolved_at := some now, resolution_comment := jsStrOrNull reason }

/-- `approveApproval`: conditional update (`status = 'pending'` only), then
`.single()` (exactly one updated row, else an error), then a history insert. -/
def approveApproval (st : LedgerState) (approvalId userId : String)
    (comment : Option String) (now : Int) :
    Except String (LedgerState × PendingApproval) :=
  match updateWherePending st.approvals approvalId (stampApproved userId comment now) with
  | (newTable, [approval]) =>
      .ok ({ approvals := newTable,
             history := st.history ++
               [{ approval_id := approvalId, user_id := userId,
                  action := "approved", comment := comment }] },
           approval)
  | _ => .error "Failed to approve or approval not found"

/-- `rejectApproval`: same conditional-update discipline as approve. -/
def rejectApproval (st : LedgerState) (approvalId userId : String)
    (reason : Option String) (now : Int) :
    Except String (LedgerState × PendingApproval) :=
  match updateWherePending st.approvals approvalId (stampRejected userId reason now) with
  | (newTable, [approval]) =>
      .ok ({ approvals := newTable,
             history := st.history ++
               [{ approval_id := approvalId, user_id := userId,
                  action := "rejected", comment := reason }] },
           approval)
  | _ => .error "Failed to reject or approval not found"

/-- `cancelApproval`: the same conditional filter, but the result is not
inspected — only a store-level error (`dbError`) makes it fail. -/
def cancelApproval (dbError : Bool) (st : LedgerState) (approvalId : String) :
    Except String LedgerState :=
  if dbError then .error "Failed to cancel approval"
  else
    .ok { st with
          approvals :=
            (updateWherePending st.approvals approvalId
              (fun a => { a with status := .cancelled })).fst }

/-- `getApprovalStatus`: a `.single()` read by id. -/
def getApprovalStatus (st : LedgerState) (approvalId : String) :
    Option PendingApproval :=
  match st.approvals.filter (fun a => a.id == approvalId) with
  | [a] => some a
  | _ => none

/-- `expireOldApprovals`: collect pending rows with
`expires_at < now`, then set `status = 'expired'` on those ids. -/
def expireOldApprovals (st : LedgerState) (now : Int) : LedgerState × Nat :=
  let expiredIds :=
    (st.approvals.filter (fun a =>
      a.status == ApprovalStatus.pending &&
        match a.expires_at with
        | some e => decide (e < now)
        | none => false)).map (fun a => a.id)
  if expiredIds.length == 0 then (st, 0)
  else
    ({ st with
       approvals := st.approvals.map (fun a =>
         if expiredIds.contains a.id then { a with status := .expired } else a) },
     expiredIds.length)

/-- Lazy read-time expiry of `GET /api/approvals/:id/status`: a stored
`pending` row whose deadline has passed is reported as `expired`. -/
def reportedStatus (approval : PendingApproval) (now : Int) : ApprovalStatus :=
  match approval.status, approval.expires_at with
  | .pending, some expiresAt => if now > expiresAt then .expired else .pending
  | s, _ => s

structure CreateApprovalParams where
  agent_id : String
  owner_id : String
  rule_id : Option String := none
  service_connection_id : Option String := none
  action_type : String
  action_payload : JsonVal
  expires_in_hours : Option Int := none

/-- `createApproval`: summary and priority are computed from the action,
`expires_at = now + (expires_in_hours || 24) hours`, status starts `pending`,
and a `created` history entry is appended. -/
def createApproval (st : LedgerState) (params : CreateApprovalParams)
    (newId : String) (now : Int) : LedgerState × PendingApproval :=
  let actionSummary := generateActionSummary params.action_type params.action_payload
  let priority := determinePriority params.action_type params.action_payload
  let expiresInHours := jsIntOr params.expires_in_hours 24
  let expiresAt := now + expiresInHours * 60 * 60 * 1000
  let approval : PendingApproval :=
    { id := newId, agent_id := params.agent_id, owner_id := params.owner_id,
      rule_id := params.rule_id,
      service_connection_id := params.service_connection_id,
      action_type := params.action_type, action_payload := params.action_payload,
      action_summary := actionSummary, status := .pending, priority := priority,
      expires_at := some expiresAt, created_at := now }
  ({ approvals := st.approvals ++ [approval],
     history := st.history ++
       [{ approval_id := newId, user_id := params.owner_id, action := "created",
          metadata := some (priority, some expiresAt) }] },
   approval)

/-! ## Gmail send route (`src/app/api/services/gmail/send/route.ts`) -/

/-- The TTL the route passes to `createApproval`:
`matchedRule?.auto_approve_after_hours || 24`. -/
def routeExpiresInHours (matchedRule : Option ApprovalRule) : Int :=
  jsIntOr (matchedRule.bind (fun r => r.auto_approve_after_hours)) 24

/-- The `createApproval` call the send route makes when a matched rule
requires approval. -/
def gmailSendCreateApproval (st : LedgerState) (agentId ownerId : String)
    (matchedRule : Option ApprovalRule) (connectionId : Option String)
    (actionPayload : JsonVal) (newId : String) (now : Int) :
    LedgerState × PendingApproval :=
  createApproval st
    { agent_id := agentId, owner_id := ownerId,
      rule_id := matchedRule.map (fun r => r.id),
      service_connection_id := connectionId,
      action_type := "gmail.send", action_payload := actionPayload,
      expires_in_hours := some (routeExpiresInHours matchedRule) }
    newId now

/-! ## Credential store (`src/lib/services/gmail.ts` + `gmail-adapter.ts`)

`enc`/`dec` stand for the adapter's symmetric `encrypt`/`decrypt`; the
provider's token-refresh exchange enters as its outcome `refreshResult`. -/

structure ServiceConnectionRow where
  id : String
  access_token_encrypted : String
  refresh_token_encrypted : Option String := none
  token_expires_at : Option Int := none
  provider_email : String := ""
  last_used_at : Option Int := none
  deriving DecidableEq

structure GmailServiceConnection where
  id : String
  access_token : String
  refresh_token : Option String := none
  token_expires_at : Option Int := none
  provider_email : String := ""
  deriving DecidableEq

/-- A provider token response (`OAuthTokens` in `gmail-adapter.ts`). -/
structure OAuthTokens where
  access_token : String
  refresh_token : Option String := none
  expires_in : Option Int := none
  token_type : String := ""
  deriving DecidableEq

/-- `decryptTokens`: the refresh credential decrypts only when the stored
ciphertext is truthy (non-empty). -/
def decryptedRefresh (dec : String → String) (r : Option String) : Option String :=
  match r with
  | some s => if s == "" then none else some (dec s)
  | none => none

/-- The stored row and returned connection after a successful refresh inside
`getGmailConnection`. -/
def afterRefresh (enc : String → String) (connection : ServiceConnectionRow)
    (refreshToken : String) (refreshedTokens : OAuthTokens) (now : Int) :
    ServiceConnectionRow × GmailServiceConnection :=
  let newRefreshToken := jsStrOr refreshedTokens.refresh_token refreshToken
  let newExpiresAt : Option Int :=
    match refreshedTokens.expires_in with
    | some n => if n == 0 then none else some (now + n * 1000)
    | none => none
  ({ connection with
       access_token_encrypted := enc refreshedTokens.access_token,
       refresh_token_encrypted := (jsStrOrNull (some newRefreshToken)).map enc,
       token_expires_at := newExpiresAt,
       last_used_at := some now },
   { id := connection.id, access_token := refreshedTokens.access_token,
     refresh_token := some newRefreshToken, token_expires_at := newExpiresAt,
     provider_email := connection.provider_email })

/-- `getGmailConnection` from `src/lib/services/gmail.ts`: fetch the active
connection, refresh when within 5 minutes of expiry and a refresh credential
exists, fall back to the stored (possibly stale) token when the refresh
exchange fails.  Returns the persisted row alongside the returned value. -/
def getGmailConnection (dec enc : String → String)
    (row : Option ServiceConnectionRow) (now : Int)
    (refreshResult : Except String OAuthTokens) :
    Option (ServiceConnectionRow × GmailServiceConnection) :=
  match row with
  | none => none
  | some connection =>
      let accessToken := dec connection.access_token_encrypted
      let refreshToken? := decryptedRefresh dec connection.refresh_token_encrypted
      let refreshed : Option (ServiceConnectionRow × GmailServiceConnection) :=
        match connection.token_expires_at with
        | some expiresAt =>
            if now ≥ expiresAt - 5 * 60 * 1000 then
              match refreshToken? with
              | some refreshToken =>
                  match refreshResult with
                  | .ok refreshedTokens =>
                      some (afterRefresh enc connection refreshToken refreshedTokens now)
                  | .error _ => none
              | none => none
            else none
        | none => none
      match refreshed with
      | some result => some result
      | none =>
          some ({ connection with last_used_at := some now },
                { id := connection.id, access_token := accessToken,
                  refresh_token := refreshToken?,
                  token_expires_at := connection.token_expires_at,
                  provider_email := connection.provider_email })

/-! ## Agent identity verifier (`src/lib/auth/agent-auth.ts`)

`verify apiKey hash` stands for `bcrypt.compare(apiKey, hash)`. -/

structure Agent where
  id : String
  owner_id : String := ""
  api_key_hash : String
  is_active : Bool := true
  last_seen_at : Option Int := none
  deriving DecidableEq

/-- `authenticateAgent`: the source computes a display key prefix but never
uses it to narrow the query; the candidate set is the first 100 active
agents, scanned in order against the slow hash.  On a hit the agent's
`last_seen_at` is updated; returns the (pre-update) agent row. -/
def authenticateAgent (verify : String → String → Bool)
    (db : List Agent) (apiKey : String) (now : Int) :
    Option (List Agent × Agent) :=
  let agents := (db.filter (fun a => a.is_active)).take 100
  if agents.length == 0 then none
  else
    match agents.find? (fun agent => verify apiKey agent.api_key_hash) with
    | some agent =>
        some (db.map (fun a =>
                if a.id == agent.id then { a with last_seen_at := some now } else a),
              agent)
    | none => none

/-! ## Shared helper lemmas -/

/-- A regex engine that matches nothing, used for closed instances whose
rules carry no `matches` pattern. -/
def regexStub : String → String → Bool → Bool := fun _ _ _ => false

theorem scanRules_of_no_match (rt : String → String → Bool → Bool)
    (context : ActionContext) :
    ∀ rules : List ApprovalRule,
      (∀ r ∈ rules, doesRuleMatch rt r context = false) →
      scanRules rt rules context = ⟨false, none⟩ := by
  intro rules h
  induction rules with
  | nil => rfl
  | cons r rest ih =>
      have hr := h r (List.mem_cons_self r rest)
      simp only [scanRules, hr]
      exact ih (fun x hx => h x (List.mem_cons_of_mem r hx))

theorem map_if_of_filter_nil {α : Type} (p : α → Bool) (f : α → α) :
    ∀ l : List α, l.filter p = [] →
      l.map (fun a => if p a then f a else a) = l := by
  intro l h
  induction l with
  | nil => rfl
  | cons a t ih =>
      rw [List.filter_cons] at h
      by_cases hp : p a
      · simp [hp] at h
      · simp only [List.map_cons, if_neg hp]
        simp only [hp, if_false] at h
        rw [ih h]

theorem filter_map_update_nil {α : Type} (p : α → Bool) (f : α → α) (l : List α)
    (hf : ∀ x, p (f x) = false) :
    (l.map (fun a => if p a then f a else a)).filter p = [] := by
  induction l with
  | nil => rfl
  | cons a t ih =>
      by_cases hp : p a <;>
        simp [List.map_cons, List.filter_cons, hp, hf, ih]

/-! ## C8 -/

/-- C8: an absent payload field never matches — whenever the dot-path
resolution comes back `undefined` or `null`, `matchesPayloadPattern` is
false for every operator (including `not_equals`) and every regex engine. -/
theorem c8_absent_field_never_matches (rt : String → String → Bool → Bool)
    (payload : JsonVal) (pattern : PayloadPattern)
    (h : getFieldValue payload pattern.field = none ∨
         getFieldValue payload pattern.field = some JsonVal.null) :
    matchesPayloadPattern rt payload pattern = false := by
  unfold matchesPayloadPattern
  rcases h with h | h <;> rw [h]

/-- C8 witness: a `not_equals` pattern on the absent `cc` field of a
concrete send payload fails to match. -/
theorem c8_witness :
    (getFieldValue (JsonVal.obj [("to", JsonVal.str "a@b.c")]) "cc" = none ∨
     getFieldValue (JsonVal.obj [("to", JsonVal.str "a@b.c")]) "cc" =
       some JsonVal.null) ∧
    matchesPayloadPattern regexStub (JsonVal.obj [("to", JsonVal.str "a@b.c")])
      { field := "cc", op := .not_equals, value := "y" } = false :=
  ⟨Or.inl rfl,
   c8_absent_field_never_matches regexStub (JsonVal.obj [("to", JsonVal.str "a@b.c")])
     { field := "cc", op := .not_equals, value := "y" } (Or.inl rfl)⟩

/-! ## C1 -/

def c1Rule : ApprovalRule :=
  { id := "r1", owner_id := "owner", priority := 10, require_approval := true }

def c1Ctx : ActionContext :=
  { agent_id := "ag", action_type := "gmail.send",
    action_payload := JsonVal.obj [("to", JsonVal.str "x@y.com")] }

/-- C1 counterexample: with an active, matching, approval-requiring rule in
store, a failed backing read still returns the fail-open result — the
failure is masked as "no approval needed", not surfaced; the same call
without the read error would require approval. -/
theorem c1_counterexample :
    evaluateRules regexStub true [c1Rule] "owner" c1Ctx = ⟨false, none⟩ ∧
    evaluateRules regexStub false [c1Rule] "owner" c1Ctx = ⟨true, some c1Rule⟩ :=
  ⟨rfl, rfl⟩

/-- C1 (amended): a backing-read failure is folded into the fail-open
branch — `evaluateRules` returns `{requiresApproval: false, matchedRule:
null}` on a read error, exactly the result produced by a genuine absence of
active rules or a non-match of every loaded rule. -/
theorem c1_read_error_fails_open (rt : String → String → Bool → Bool)
    (db : List ApprovalRule) (ownerId : String) (context : ActionContext) :
    evaluateRules rt true db ownerId context = ⟨false, none⟩ ∧
    ((∀ r ∈ fetchedRules db ownerId context.agent_id,
        doesRuleMatch rt r context = false) →
      evaluateRules rt false db ownerId context = ⟨false, none⟩) := by
  constructor
  · simp [evaluateRules]
  · intro h
    unfold evaluateRules
    cases hb : (fetchedRules db ownerId context.agent_id).length == 0 with
    | true => simp [hb]
    | false =>
        simp only [hb, Bool.false_or, Bool.false_eq_true, if_false]
        exact scanRules_of_no_match rt context _ h

/-- C1 witness: with an empty rule store (no rules at all), the no-error
path fails open. -/
theorem c1_witness :
    evaluateRules regexStub true ([] : List ApprovalRule) "owner" c1Ctx =
      ⟨false, none⟩ ∧
    evaluateRules regexStub false ([] : List ApprovalRule) "owner" c1Ctx =
      ⟨false, none⟩ :=
  ⟨(c1_read_error_fails_open regexStub [] "owner" c1Ctx).1,
   (c1_read_error_fails_open regexStub [] "owner" c1Ctx).2
     (fun r hr => absurd hr (List.not_mem_nil r))⟩

/-! ## C5 -/

def c5Approval : PendingApproval :=
  { id := "a1", agent_id := "ag", owner_id := "ow", action_type := "gmail.send",
    status := .pending, expires_at := some 1000 }

/-- C5 counterexample: a pending approval whose `expires_at` equals the
current instant is NOT treated as expired — the lazy read reports it
`pending` and the sweep transitions nothing. -/
theorem c5_counterexample :
    c5Approval.status = .pending ∧ c5Approval.expires_at = some 1000 ∧
    reportedStatus c5Approval 1000 = .pending ∧
    expireOldApprovals ⟨[c5Approval], []⟩ 1000 = (⟨[c5Approval], []⟩, 0) :=
  ⟨rfl, rfl, rfl, rfl⟩

/-- C5 (amended): expiry is strict on the expired side — a stored-pending
approval is reported/swept `expired` exactly when `now` is strictly after
`expires_at`; at `now = expires_at` it still counts as pending on both the
lazy read path and the background sweep. -/
theorem c5_expiry_boundary (a : PendingApproval) (e now : Int)
    (h : List HistoryEntry)
    (hst : a.status = .pending) (he : a.expires_at = some e) :
    (reportedStatus a now = .expired ↔ e < now) ∧
    (reportedStatus a now = .pending ↔ now ≤ e) ∧
    (now ≤ e → expireOldApprovals ⟨[a], h⟩ now = (⟨[a], h⟩, 0)) ∧
    (e < now →
      expireOldApprovals ⟨[a], h⟩ now = (⟨[{ a with status := .expired }], h⟩, 1)) := by
  obtain ⟨i1, i2, i3, i4, i5, i6, i7, i8, st0, i9, i10, i11, i12, ea0, i13⟩ := a
  simp only at hst he
  subst hst; subst he
  refine ⟨?_, ?_, ?_, ?_⟩
  · unfold reportedStatus
    by_cases hlt : e < now <;> simp [hlt]
  · unfold reportedStatus
    by_cases hlt : e < now <;> simp [hlt] <;> omega
  · intro hle
    unfold expireOldApprovals
    simp only [List.filter]
    have : ¬(e < now) := by omega
    simp [isPendingWithId, this]
  · intro hlt
    unfold expireOldApprovals
    simp [List.filter, hlt]

/-- C5 witness: the amended boundary at a concrete pending approval. -/
theorem c5_witness :
    (reportedStatus c5Approval 1000 = .pending ↔ (1000 : Int) ≤ 1000) ∧
    expireOldApprovals ⟨[c5Approval], []⟩ 1001 =
      (⟨[{ c5Approval with status := .expired }], []⟩, 1) :=
  ⟨(c5_expiry_boundary c5Approval 1000 1000 [] rfl rfl).2.1,
   (c5_expiry_boundary c5Approval 1000 1001 [] rfl rfl).2.2.2 (by decide)⟩

/-! ## C9 -/

def c9Resolved : PendingApproval :=
  { id := "a1", agent_id := "ag", owner_id := "ow", action_type := "gmail.send",
    status := .approved }

/-- C9 counterexample: cancelling an already-approved approval — or a
nonexistent id — reports plain success with the store unchanged, not a
conflict. -/
theorem c9_counterexample :
    c9Resolved.status = .approved ∧
    cancelApproval false ⟨[c9Resolved], []⟩ "a1" = .ok ⟨[c9Resolved], []⟩ ∧
    cancelApproval false ⟨[c9Resolved], []⟩ "missing" = .ok ⟨[c9Resolved], []⟩ :=
  ⟨rfl, rfl, rfl⟩

/-- C9 (amended): `cancelApproval` updates only rows still `pending` with
the requested id (conditional-filter discipline, `pending → cancelled`),
but it never inspects how many rows matched: when the approval is already
resolved or absent it returns silent success with the store unchanged —
no conflict is reported.  Only a store-level error makes it fail. -/
theorem c9_cancel_silent (st : LedgerState) (approvalId : String) :
    cancelApproval false st approvalId =
      .ok { st with
            approvals := st.approvals.map (fun a =>
              if isPendingWithId approvalId a then { a with status := .cancelled }
              else a) } ∧
    (st.approvals.filter (isPendingWithId approvalId) = [] →
      cancelApproval false st approvalId = .ok st) ∧
    (∀ st2, cancelApproval true st2 approvalId =
      .error "Failed to cancel approval") := by
  refine ⟨rfl, ?_, fun _ => rfl⟩
  intro hnil
  unfold cancelApproval updateWherePending
  rw [map_if_of_filter_nil _ _ _ hnil]
  rfl

/-- C9 witness: silent success on a store holding only a resolved row. -/
theorem c9_witness :
    cancelApproval false ⟨[c9Resolved, c9Resolved], []⟩ "other" =
      .ok ⟨[c9Resolved, c9Resolved], []⟩ :=
  (c9_cancel_silent ⟨[c9Resolved, c9Resolved], []⟩ "other").2.1 rfl

/-! ## C10 -/

/-- C10: resolution never consults the expiry deadline — a stored-pending
approval whose `expires_at` is already in the past is still successfully
approved or rejected, committing the terminal status. -/
theorem c10_resolution_ignores_expiry (st : LedgerState) (a : PendingApproval)
    (approvalId userId : String) (comment : Option String) (now e : Int)
    (hfilter : st.approvals.filter (isPendingWithId approvalId) = [a])
    (he : a.expires_at = some e) (hpast : e < now) :
    (∃ st1, approveApproval st approvalId userId comment now =
        .ok (st1, stampApproved userId comment now a)) ∧
    (stampApproved userId comment now a).status = .approved ∧
    (∃ st2, rejectApproval st approvalId userId comment now =
        .ok (st2, stampRejected userId comment now a)) ∧
    (stampRejected userId comment now a).status = .rejected := by
  refine ⟨⟨?_, ?_⟩, rfl, ⟨?_, ?_⟩, rfl⟩
  · exact
      { approvals := st.approvals.map (fun x =>
          if isPendingWithId approvalId x then stampApproved userId comment now x
          else x),
        history := st.history ++
          [{ approval_id := approvalId, user_id := userId, action := "approved",
             comment := comment }] }
  · unfold approveApproval updateWherePending
    rw [hfilter]
    rfl
  · exact
      { approvals := st.approvals.map (fun x =>
          if isPendingWithId approvalId x then stampRejected userId comment now x
          else x),
        history := st.history ++
          [{ approval_id := approvalId, user_id := userId, action := "rejected",
             comment := comment }] }
  · unfold rejectApproval updateWherePending
    rw [hfilter]
    rfl

def c10Overdue : PendingApproval :=
  { id := "a9", agent_id := "ag", owner_id := "ow", action_type := "gmail.send",
    status := .pending, expires_at := some 100 }

/-- C10 witness: an approval already past its deadline (expired at 100,
now 500) is still approved. -/
theorem c10_witness :
    (∃ st1, approveApproval ⟨[c10Overdue], []⟩ "a9" "user" none 500 =
        .ok (st1, stampApproved "user" none 500 c10Overdue)) ∧
    (stampApproved "user" none 500 c10Overdue).status = .approved :=
  ⟨(c10_resolution_ignores_expiry ⟨[c10Overdue], []⟩ c10Overdue "a9" "user" none
      500 100 rfl rfl (by decide)).1,
   rfl⟩

/-! ## C2 -/

/-- The resolved state `approveApproval` commits on success. -/
def approvedState (st : LedgerState) (approvalId userId : String)
    (comment : Option String) (now : Int) : LedgerState :=
  { approvals := st.approvals.map (fun x =>
      if isPendingWithId approvalId x then stampApproved userId comment now x
      else x),
    history := st.history ++
      [{ approval_id := approvalId, user_id := userId, action := "approved",
         comment := comment }] }

/-- The resolved state `rejectApproval` commits on success. -/
def rejectedState (st : LedgerState) (approvalId userId : String)
    (reason : Option String) (now : Int) : LedgerState :=
  { approvals := st.approvals.map (fun x =>
      if isPendingWithId approvalId x then stampRejected userId reason now x
      else x),
    history := st.history ++
      [{ approval_id := approvalId, user_id := userId, action := "rejected",
         comment := reason }] }

theorem approveApproval_eq (st : LedgerState) (approvalId userId : String)
    (comment : Option String) (now : Int) :
    approveApproval st approvalId userId comment now =
      (match st.approvals.filter (isPendingWithId approvalId) with
       | [a] => .ok (approvedState st approvalId userId comment now,
                     stampApproved userId comment now a)
       | _ => .error "Failed to approve or approval not found") := by
  unfold approveApproval updateWherePending approvedState
  rcases hf : st.approvals.filter (isPendingWithId approvalId) with _ | ⟨a, _ | ⟨b, t⟩⟩ <;>
    rfl

theorem rejectApproval_eq (st : LedgerState) (approvalId userId : String)
    (reason : Option String) (now : Int) :
    rejectApproval st approvalId userId reason now =
      (match st.approvals.filter (isPendingWithId approvalId) with
       | [a] => .ok (rejectedState st approvalId userId reason now,
                     stampRejected userId reason now a)
       | _ => .error "Failed to reject or approval not found") := by
  unfold rejectApproval updateWherePending rejectedState
  rcases hf : st.approvals.filter (isPendingWithId approvalId) with _ | ⟨a, _ | ⟨b, t⟩⟩ <;>
    rfl

theorem isPendingWithId_stampApproved (approvalId userId : String)
    (comment : Option String) (now : Int) (x : PendingApproval) :
    isPendingWithId approvalId (stampApproved userId comment now x) = false := by
  simp [isPendingWithId, stampApproved]

theorem isPendingWithId_stampRejected (approvalId userId : String)
    (reason : Option String) (now : Int) (x : PendingApproval) :
    isPendingWithId approvalId (stampRejected userId reason now x) = false := by
  simp [isPendingWithId, stampRejected]

theorem approvedState_filter_nil (st : LedgerState) (approvalId userId : String)
    (comment : Option String) (now : Int) :
    (approvedState st approvalId userId comment now).approvals.filter
      (isPendingWithId approvalId) = [] :=
  filter_map_update_nil _ _ _
    (isPendingWithId_stampApproved approvalId userId comment now)

theorem rejectedState_filter_nil (st : LedgerState) (approvalId userId : String)
    (reason : Option String) (now : Int) :
    (rejectedState st approvalId userId reason now).approvals.filter
      (isPendingWithId approvalId) = [] :=
  filter_map_update_nil _ _ _
    (isPendingWithId_stampRejected approvalId userId reason now)

/-- C2: approve/reject succeed exactly when the stored row is still
`pending`; on success the resolver, timestamp, comment and terminal status
are stamped and a matching history entry is appended; on an
already-resolved or missing approval the call errors and the store is
untouched; and once a resolution has landed, every further approve/reject
on the same id fails — so at most one of racing resolution attempts,
serialized by the conditional write, can succeed. -/
theorem c2_resolution_exactly_once (st : LedgerState)
    (approvalId userId u2 : String) (comment com2 : Option String)
    (now t2 : Int) :
    -- success forms of the two resolutions
    (∀ st1 res, approveApproval st approvalId userId comment now = .ok (st1, res) →
      ∃ a, st.approvals.filter (isPendingWithId approvalId) = [a] ∧
        a.status = .pending ∧
        res = stampApproved userId comment now a ∧
        res.status = .approved ∧ res.resolved_by = some userId ∧
        res.resolved_at = some now ∧
        res.resolution_comment = jsStrOrNull comment ∧
        st1 = approvedState st approvalId userId comment now ∧
        st1.history = st.history ++
          [{ approval_id := approvalId, user_id := userId, action := "approved",
             comment := comment }]) ∧
    (∀ st1 res, rejectApproval st approvalId userId comment now = .ok (st1, res) →
      ∃ a, st.approvals.filter (isPendingWithId approvalId) = [a] ∧
        a.status = .pending ∧
        res = stampRejected userId comment now a ∧
        res.status = .rejected ∧ res.resolved_by = some userId ∧
        res.resolved_at = some now ∧
        res.resolution_comment = jsStrOrNull comment ∧
        st1 = rejectedState st approvalId userId comment now) ∧
    -- conversely, a unique still-pending row guarantees success
    (∀ a, st.approvals.filter (isPendingWithId approvalId) = [a] →
      approveApproval st approvalId userId comment now =
        .ok (approvedState st approvalId userId comment now,
             stampApproved userId comment now a)) ∧
    -- already resolved or not found: conflict error, store untouched
    (st.approvals.filter (isPendingWithId approvalId) = [] →
      approveApproval st approvalId userId comment now =
          .error "Failed to approve or approval not found" ∧
      rejectApproval st approvalId userId comment now =
          .error "Failed to reject or approval not found" ∧
      (updateWherePending st.approvals approvalId
        (stampApproved userId comment now)).fst = st.approvals) ∧
    -- a committed resolution can never be overwritten
    (∀ st1 res, approveApproval st approvalId userId comment now = .ok (st1, res) →
      approveApproval st1 approvalId u2 com2 t2 =
          .error "Failed to approve or approval not found" ∧
      rejectApproval st1 approvalId u2 com2 t2 =
          .error "Failed to reject or approval not found") ∧
    (∀ st1 res, rejectApproval st approvalId userId comment now = .ok (st1, res) →
      approveApproval st1 approvalId u2 com2 t2 =
          .error "Failed to approve or approval not found" ∧
      rejectApproval st1 approvalId u2 com2 t2 =
          .error "Failed to reject or approval not found") := by
  have happrove := approveApproval_eq st approvalId userId comment now
  have hreject := rejectApproval_eq st approvalId userId comment now
  refine ⟨?_, ?_, ?_, ?_, ?_, ?_⟩
  · intro st1 res hok
    rw [happrove] at hok
    rcases hf : st.approvals.filter (isPendingWithId approvalId) with _ | ⟨a, _ | ⟨b, t⟩⟩
    · rw [hf] at hok
      exact Except.noConfusion hok
    · rw [hf] at hok
      have h1 := Except.ok.inj hok
      injection h1 with h2 h3
      have hpend : a.status = .pending := by
        have hmem : a ∈ st.approvals.filter (isPendingWithId approvalId) := by
          rw [hf]; exact List.mem_singleton.mpr rfl
        have hp := List.of_mem_filter hmem
        unfold isPendingWithId at hp
        exact eq_of_beq ((Bool.and_eq_true _ _).mp hp).2
      subst h2; subst h3
      exact ⟨a, rfl, hpend, rfl, rfl, rfl, rfl, rfl, rfl, rfl⟩
    · rw [hf] at hok
      exact Except.noConfusion hok
  · intro st1 res hok
    rw [hreject] at hok
    rcases hf : st.approvals.filter (isPendingWithId approvalId) with _ | ⟨a, _ | ⟨b, t⟩⟩
    · rw [hf] at hok
      exact Except.noConfusion hok
    · rw [hf] at hok
      have h1 := Except.ok.inj hok
      injection h1 with h2 h3
      have hpend : a.status = .pending := by
        have hmem : a ∈ st.approvals.filter (isPendingWithId approvalId) := by
          rw [hf]; exact List.mem_singleton.mpr rfl
        have hp := List.of_mem_filter hmem
        unfold isPendingWithId at hp
        exact eq_of_beq ((Bool.and_eq_true _ _).mp hp).2
      subst h2; subst h3
      exact ⟨a, rfl, hpend, rfl, rfl, rfl, rfl, rfl, rfl⟩
    · rw [hf] at hok
      exact Except.noConfusion hok
  · intro a hf
    rw [happrove, hf]
  · intro hf
    refine ⟨?_, ?_, ?_⟩
    · rw [happrove, hf]
    · rw [hreject, hf]
    · unfold updateWherePending
      exact map_if_of_filter_nil _ _ _ hf
  · intro st1 res hok
    rw [happrove] at hok
    rcases hf : st.approvals.filter (isPendingWithId approvalId) with _ | ⟨a, _ | ⟨b, t⟩⟩
    · rw [hf] at hok
      exact Except.noConfusion hok
    · rw [hf] at hok
      have h1 := Except.ok.inj hok
      injection h1 with h2 h3
      subst h2
      constructor
      · rw [approveApproval_eq, approvedState_filter_nil]
      · rw [rejectApproval_eq, approvedState_filter_nil]
    · rw [hf] at hok
      exact Except.noConfusion hok
  · intro st1 res hok
    rw [hreject] at hok
    rcases hf : st.approvals.filter (isPendingWithId approvalId) with _ | ⟨a, _ | ⟨b, t⟩⟩
    · rw [hf] at hok
      exact Except.noConfusion hok
    · rw [hf] at hok
      have h1 := Except.ok.inj hok
      injection h1 with h2 h3
      subst h2
      constructor
      · rw [approveApproval_eq, rejectedState_filter_nil]
      · rw [rejectApproval_eq, rejectedState_filter_nil]
    · rw [hf] at hok
      exact Except.noConfusion hok

def c2Pending : PendingApproval :=
  { id := "a2", agent_id := "ag", owner_id := "ow", action_type := "gmail.send",
    status := .pending, expires_at := some 99999 }

/-- C2 witness: on a concrete pending approval the first approve succeeds
and a subsequent reject on the committed state conflicts. -/
theorem c2_witness :
    approveApproval ⟨[c2Pending], []⟩ "a2" "human" (some "ok") 7 =
      .ok (approvedState ⟨[c2Pending], []⟩ "a2" "human" (some "ok") 7,
           stampApproved "human" (some "ok") 7 c2Pending) ∧
    rejectApproval (approvedState ⟨[c2Pending], []⟩ "a2" "human" (some "ok") 7)
        "a2" "other" none 8 =
      .error "Failed to reject or approval not found" :=
  ⟨(c2_resolution_exactly_once ⟨[c2Pending], []⟩ "a2" "human" "other"
      (some "ok") none 7 8).2.2.1 c2Pending rfl,
   ((c2_resolution_exactly_once ⟨[c2Pending], []⟩ "a2" "human" "other"
      (some "ok") none 7 8).2.2.2.2.1
     (approvedState ⟨[c2Pending], []⟩ "a2" "human" (some "ok") 7)
     (stampApproved "human" (some "ok") 7 c2Pending)
     ((c2_resolution_exactly_once ⟨[c2Pending], []⟩ "a2" "human" "other"
        (some "ok") none 7 8).2.2.1 c2Pending rfl)).2⟩

/-! ## C4 -/

theorem jsIntOr24_ne_zero (o : Option Int) : jsIntOr o 24 ≠ 0 := by
  unfold jsIntOr
  rcases o with _ | n
  · simp
  · by_cases h0 : n == 0
    · simp [h0]
    · simp only [h0, Bool.false_eq_true, if_false]
      exact fun hn => h0 (by simp [hn])

theorem routeExpiresInHours_ne_zero (matchedRule : Option ApprovalRule) :
    routeExpiresInHours matchedRule ≠ 0 :=
  jsIntOr24_ne_zero _

theorem jsIntOr_some_of_ne_zero (x d : Int) (hx : x ≠ 0) :
    jsIntOr (some x) d = x := by
  unfold jsIntOr
  simp [hx]

/-- The status rewrite a single sweep pass applies to one row. -/
def sweepStep (expiredIds : List String) (a : PendingApproval) : PendingApproval :=
  if expiredIds.contains a.id then { a with status := .expired } else a

/-- The row predicate of the sweep's read:
`status = 'pending' AND expires_at < now`. -/
def isOverduePending (now : Int) (a : PendingApproval) : Bool :=
  a.status == ApprovalStatus.pending &&
    match a.expires_at with
    | some e => decide (e < now)
    | none => false

theorem expireOldApprovals_eq (st : LedgerState) (now : Int) :
    expireOldApprovals st now =
      (let expiredIds := (st.approvals.filter (isOverduePending now)).map
          (fun a => a.id)
       if expiredIds.length == 0 then (st, 0)
       else ({ st with approvals := st.approvals.map (sweepStep expiredIds) },
             expiredIds.length)) := by
  unfold expireOldApprovals sweepStep isOverduePending
  rfl

/-- C4: `auto_approve_after_hours` is only an expiry window — the send
route turns it into the created approval's `expires_at` (defaulting to 24
hours when the rule carries none), the created approval starts `pending`,
and the passage of time alone can only ever drive a pending approval to
`expired`: every row the sweep rewrites gets status `expired` (pending
rows, under unique ids) and the lazy read-time check can only reinterpret
a stored-pending row as `expired` — neither path ever yields `approved`. -/
theorem c4_ttl_only_expires (st : LedgerState) (agentId ownerId : String)
    (matchedRule : Option ApprovalRule) (connectionId : Option String)
    (payload : JsonVal) (newId : String) (now : Int) :
    ((gmailSendCreateApproval st agentId ownerId matchedRule connectionId
        payload newId now).snd.expires_at =
      some (now + routeExpiresInHours matchedRule * 60 * 60 * 1000)) ∧
    ((gmailSendCreateApproval st agentId ownerId matchedRule connectionId
        payload newId now).snd.status = .pending) ∧
    (matchedRule.bind (fun r => r.auto_approve_after_hours) = none →
      routeExpiresInHours matchedRule = 24) ∧
    (∀ b, b ∈ ((expireOldApprovals st now).fst).approvals →
      b ∈ st.approvals ∨
        (b.status = .expired ∧ ∃ a, a ∈ st.approvals ∧
          b = { a with status := .expired } ∧
          ((st.approvals.map (fun x => x.id)).Nodup → a.status = .pending))) ∧
    (∀ a : PendingApproval, ∀ t : Int,
      reportedStatus a t = a.status ∨
        (a.status = .pending ∧ reportedStatus a t = .expired)) ∧
    (∀ a : PendingApproval, ∀ t : Int,
      a.status ≠ .approved → reportedStatus a t ≠ .approved) := by
  have hlazy : ∀ a : PendingApproval, ∀ t : Int,
      reportedStatus a t = a.status ∨
        (a.status = .pending ∧ reportedStatus a t = .expired) := by
    intro a t
    unfold reportedStatus
    cases hs : a.status <;> cases he : a.expires_at <;> simp
    by_cases hlt : t > (match some ‹Int› with | some e => e | none => 0) <;> simp_all
  refine ⟨?_, rfl, ?_, ?_, hlazy, ?_⟩
  · unfold gmailSendCreateApproval createApproval
    simp only
    rw [jsIntOr_some_of_ne_zero _ _ (routeExpiresInHours_ne_zero matchedRule)]
  · intro hnone
    unfold routeExpiresInHours
    rw [hnone]
    rfl
  · intro b hb
    rw [expireOldApprovals_eq] at hb
    simp only at hb
    by_cases hz : ((st.approvals.filter (isOverduePending now)).map
        (fun a => a.id)).length == 0
    · rw [if_pos hz] at hb
      exact Or.inl hb
    · rw [if_neg hz] at hb
      obtain ⟨a, ha, hba⟩ := List.mem_map.mp hb
      unfold sweepStep at hba
      by_cases hc : ((st.approvals.filter (isOverduePending now)).map
          (fun x => x.id)).contains a.id
      · rw [if_pos hc] at hba
        refine Or.inr ⟨by rw [← hba], a, ha, hba.symm, ?_⟩
        intro hnodup
        have hmemid : a.id ∈ (st.approvals.filter (isOverduePending now)).map
            (fun x => x.id) := List.elem_iff.mp hc
        obtain ⟨c, hc1, hc2⟩ := List.mem_map.mp hmemid
        have hcmem := List.mem_of_mem_filter hc1
        have hpred := List.of_mem_filter hc1
        have hca : c = a :=
          List.inj_on_of_nodup_map hnodup hcmem ha hc2
        rw [← hca]
        unfold isOverduePending at hpred
        exact eq_of_beq ((Bool.and_eq_true _ _).mp hpred).1
      · rw [if_neg hc] at hba
        exact Or.inl (hba ▸ ha)
  · intro a t hne
    rcases hlazy a t with h | ⟨_, h⟩
    · rw [h]; exact hne
    · rw [h]; intro hcon; exact ApprovalStatus.noConfusion hcon

def c4Rule : ApprovalRule :=
  { id := "r4", owner_id := "ow", priority := 1, require_approval := true,
    auto_approve_after_hours := some 2 }

/-- C4 witness: with a matched rule carrying `auto_approve_after_hours = 2`
the created approval expires two hours out, starts pending, and the
rule-less default is 24 hours. -/
theorem c4_witness :
    (gmailSendCreateApproval ⟨[], []⟩ "ag" "ow" (some c4Rule) none
        (JsonVal.obj [("to", JsonVal.str "a@b.c")]) "n1" 0).snd.expires_at =
      some (0 + routeExpiresInHours (some c4Rule) * 60 * 60 * 1000) ∧
    (gmailSendCreateApproval ⟨[], []⟩ "ag" "ow" (some c4Rule) none
        (JsonVal.obj [("to", JsonVal.str "a@b.c")]) "n1" 0).snd.status =
      .pending ∧
    routeExpiresInHours none = 24 :=
  ⟨(c4_ttl_only_expires ⟨[], []⟩ "ag" "ow" (some c4Rule) none
      (JsonVal.obj [("to", JsonVal.str "a@b.c")]) "n1" 0).1,
   (c4_ttl_only_expires ⟨[], []⟩ "ag" "ow" (some c4Rule) none
      (JsonVal.obj [("to", JsonVal.str "a@b.c")]) "n1" 0).2.1,
   (c4_ttl_only_expires ⟨[], []⟩ "ag" "ow" none none
      (JsonVal.obj [("to", JsonVal.str "a@b.c")]) "n1" 0).2.2.1 rfl⟩

/-! ## C7 -/

def c7Agents : List Agent :=
  (List.range 101).map (fun i => { id := toString i, api_key_hash := toString i })

def c7Verify : String → String → Bool := fun key h => key == "k" && h == "100"

/-- C7 counterexample: with 101 active agents of which only the 101st holds
the presented key, authentication fails — the scan is capped at 100
candidates, so not every active agent's hash is tried. -/
theorem c7_counterexample :
    ({ id := "100", api_key_hash := "100" } : Agent) ∈ c7Agents ∧
    ({ id := "100", api_key_hash := "100" } : Agent).is_active = true ∧
    c7Verify "k" ({ id := "100", api_key_hash := "100" } : Agent).api_key_hash = true ∧
    authenticateAgent c7Verify c7Agents "k" 0 = none :=
  ⟨by decide, rfl, rfl, rfl⟩

/-- C7 (amended): authentication scans (at most) the first 100 active
agents against the stored slow hash: any returned agent is active, its
hash verifies the presented key, it lies among those candidates, and its
`last_seen_at` is stamped; conversely the first candidate whose hash
verifies is returned.  No inactive agent is ever returned. -/
theorem c7_bounded_active_scan (verify : String → String → Bool)
    (db : List Agent) (apiKey : String) (now : Int) :
    (∀ db1 agent, authenticateAgent verify db apiKey now = some (db1, agent) →
      agent.is_active = true ∧ verify apiKey agent.api_key_hash = true ∧
      agent ∈ (db.filter (fun a => a.is_active)).take 100 ∧
      db1 = db.map (fun a =>
        if a.id == agent.id then { a with last_seen_at := some now } else a)) ∧
    (∀ agent,
      ((db.filter (fun a => a.is_active)).take 100).find?
          (fun a => verify apiKey a.api_key_hash) = some agent →
      authenticateAgent verify db apiKey now =
        some (db.map (fun a =>
          if a.id == agent.id then { a with last_seen_at := some now } else a),
          agent)) := by
  constructor
  · intro db1 agent hres
    unfold authenticateAgent at hres
    by_cases hz : ((db.filter (fun a => a.is_active)).take 100).length == 0
    · rw [if_pos hz] at hres
      exact Option.noConfusion hres
    · rw [if_neg hz] at hres
      rcases hfind : ((db.filter (fun a => a.is_active)).take 100).find?
          (fun a => verify apiKey a.api_key_hash) with _ | found
      · rw [hfind] at hres
        exact Option.noConfusion hres
      · rw [hfind] at hres
        have h1 := Option.some.inj hres
        injection h1 with h2 h3
        cases h3
        have hmem := List.mem_of_find?_eq_some hfind
        have hp := List.find?_some hfind
        have hact : agent.is_active = true :=
          List.of_mem_filter (List.take_subset 100 _ hmem)
        exact ⟨hact, hp, hmem, h2.symm⟩
  · intro agent hfind
    unfold authenticateAgent
    have hne : ((db.filter (fun a => a.is_active)).take 100) ≠ [] := by
      intro hnil
      rw [hnil] at hfind
      exact Option.noConfusion hfind
    have hz : (((db.filter (fun a => a.is_active)).take 100).length == 0) = false := by
      rcases hl : ((db.filter (fun a => a.is_active)).take 100) with _ | ⟨x, xs⟩
      · exact absurd hl hne
      · rw [hl]; rfl
    rw [if_neg (fun hc => Bool.false_ne_true (hz ▸ hc)), hfind]

def c7Db : List Agent :=
  [{ id := "ag1", api_key_hash := "h1" },
   { id := "ag2", api_key_hash := "h2", is_active := false }]

def c7V : String → String → Bool := fun key h => key == "k" && h == "h1"

/-- C7 witness: on a two-agent store the active agent holding the key is
authenticated and stamped. -/
theorem c7_witness :
    ((c7Db.filter (fun a => a.is_active)).take 100).find?
        (fun a => c7V "k" a.api_key_hash) =
      some { id := "ag1", api_key_hash := "h1" } ∧
    ∃ p, authenticateAgent c7V c7Db "k" 9 = some p ∧
      p.snd = { id := "ag1", api_key_hash := "h1" } ∧
      p.fst = [{ id := "ag1", api_key_hash := "h1", last_seen_at := some 9 },
               { id := "ag2", api_key_hash := "h2", is_active := false }] :=
  ⟨rfl,
   ⟨_, (c7_bounded_active_scan c7V c7Db "k" 9).2
        { id := "ag1", api_key_hash := "h1" } rfl, rfl, by decide⟩⟩

/-! ## C6 -/

def c6Conn : ServiceConnectionRow :=
  { id := "c1", access_token_encrypted := "enc-old",
    refresh_token_encrypted := some "enc-ref",
    token_expires_at := some 240000, provider_email := "a@b.c" }

def c6Tokens : OAuthTokens :=
  { access_token := "new", refresh_token := some "newref", token_type := "Bearer" }

/-- C6 counterexample: a connection expiring four minutes from now is
refreshed, but when the provider's successful refresh response carries no
`expires_in` the persisted expiry is cleared to null — it does not move
forward. -/
theorem c6_counterexample :
    c6Conn.token_expires_at = some 240000 ∧
    getGmailConnection id id (some c6Conn) 0 (.ok c6Tokens) =
      some ({ c6Conn with
              access_token_encrypted := "new",
              refresh_token_encrypted := some "newref",
              token_expires_at := none, last_used_at := some 0 },
            { id := "c1", access_token := "new", refresh_token := some "newref",
              token_expires_at := none, provider_email := "a@b.c" }) ∧
    (afterRefresh id c6Conn "enc-ref" c6Tokens 0).fst.token_expires_at = none :=
  ⟨rfl, rfl, rfl⟩

/-- C6 (amended): within the 5-minute buffer and with a refresh credential
present, `getGmailConnection` performs the provider refresh: on success it
persists the newly encrypted pair, stamps `last_used_at`, returns the fresh
access token, and stores the provider-reported expiry `now + expires_in`
seconds (cleared to null when the provider omits it) — strictly later than
the old expiry whenever `expires_in` exceeds the buffer; on refresh failure
it returns the existing decrypted, possibly stale, token instead of
failing. -/
theorem c6_refresh_buffer (dec enc : String → String)
    (row : ServiceConnectionRow) (now e : Int) (rt0 : String)
    (hexp : row.token_expires_at = some e)
    (hbuf : now ≥ e - 5 * 60 * 1000)
    (hrt : decryptedRefresh dec row.refresh_token_encrypted = some rt0) :
    (∀ tks, getGmailConnection dec enc (some row) now (.ok tks) =
      some (afterRefresh enc row rt0 tks now)) ∧
    (∀ tks,
      (afterRefresh enc row rt0 tks now).snd.access_token = tks.access_token ∧
      (afterRefresh enc row rt0 tks now).fst.access_token_encrypted =
        enc tks.access_token ∧
      (afterRefresh enc row rt0 tks now).fst.last_used_at = some now ∧
      (∀ n, tks.expires_in = some n → n ≠ 0 →
        (afterRefresh enc row rt0 tks now).fst.token_expires_at =
          some (now + n * 1000) ∧
        (n * 1000 > 5 * 60 * 1000 → e < now + n * 1000))) ∧
    (∀ msg, getGmailConnection dec enc (some row) now (.error msg) =
      some ({ row with last_used_at := some now },
            { id := row.id, access_token := dec row.access_token_encrypted,
              refresh_token := decryptedRefresh dec row.refresh_token_encrypted,
              token_expires_at := row.token_expires_at,
              provider_email := row.provider_email })) := by
  refine ⟨?_, ?_, ?_⟩
  · intro tks
    simp only [getGmailConnection, hexp, hrt]
    rw [if_pos hbuf]
  · intro tks
    refine ⟨rfl, rfl, rfl, ?_⟩
    intro n hn hn0
    unfold afterRefresh
    rw [hn]
    constructor
    · simp only
      rw [if_neg (fun hc => hn0 (eq_of_beq hc))]
    · intro hbig
      omega
  · intro msg
    simp only [getGmailConnection, hexp, hrt]
    rw [if_pos hbuf]

def c6OkTokens : OAuthTokens :=
  { access_token := "fresh", refresh_token := none, expires_in := some 3600,
    token_type := "Bearer" }

/-- C6 witness: a connection expiring four minutes out (240000 ms, now 0)
with a one-hour refresh grant: the refreshed token is returned and the
stored expiry strictly moves forward. -/
theorem c6_witness :
    getGmailConnection id id (some c6Conn) 0 (.ok c6OkTokens) =
      some (afterRefresh id c6Conn "enc-ref" c6OkTokens 0) ∧
    (afterRefresh id c6Conn "enc-ref" c6OkTokens 0).snd.access_token = "fresh" ∧
    (afterRefresh id c6Conn "enc-ref" c6OkTokens 0).fst.token_expires_at =
      some 3600000 ∧
    (240000 : Int) < 3600000 :=
  ⟨(c6_refresh_buffer id id c6Conn 0 240000 "enc-ref" rfl (by decide) rfl).1
     c6OkTokens,
   ((c6_refresh_buffer id id c6Conn 0 240000 "enc-ref" rfl (by decide) rfl).2.1
     c6OkTokens).1,
   by
     have h := (((c6_refresh_buffer id id c6Conn 0 240000 "enc-ref" rfl
       (by decide) rfl).2.1 c6OkTokens).2.2.2) 3600 rfl (by decide)
     simpa using h.1,
   by decide⟩

/-! ## C3 -/

/-- Positive reading of the agent-scope filter family. -/
def agentFilterOk (rule : ApprovalRule) (context : ActionContext) : Bool :=
  match rule.conditions.agent_ids with
  | some ids => ids.length == 0 || ids.contains context.agent_id
  | none => true

/-- Positive reading of the action-type filter family. -/
def actionTypeFilterOk (rule : ApprovalRule) (context : ActionContext) : Bool :=
  match rule.conditions.action_types with
  | some ids => ids.length == 0 || ids.contains context.action_type
  | none => true

/-- Positive reading of the provider filter family. -/
def providerFilterOk (rule : ApprovalRule) (context : ActionContext) : Bool :=
  match rule.conditions.service_provider_ids with
  | some ids => ids.length == 0 ||
      (match context.service_provider_id with
       | some sp => !(sp == "") && ids.contains sp
       | none => false)
  | none => true

/-- Positive reading of the payload-pattern filter family. -/
def patternsFilterOk (rt : String → String → Bool → Bool)
    (rule : ApprovalRule) (context : ActionContext) : Bool :=
  match rule.conditions.payload_patterns with
  | some pats => pats.length == 0 ||
      pats.all (fun p => matchesPayloadPattern rt context.action_payload p)
  | none => true

theorem ite_chain_four (g1 g2 g3 g4 : Bool) :
    (if g1 then false else if g2 then false else if g3 then false
     else if g4 then false else true) = (!g1 && !g2 && !g3 && !g4) := by
  cases g1 <;> cases g2 <;> cases g3 <;> cases g4 <;> rfl

theorem not_membershipGuard (o : Option (List String)) (x : String) :
    (!(match o with
       | some ids => decide (ids.length > 0) && !(ids.contains x)
       | none => false)) =
    (match o with
     | some ids => ids.length == 0 || ids.contains x
     | none => true) := by
  rcases o with _ | ids
  · rfl
  · show (!(decide (ids.length > 0) && !(ids.contains x))) =
      (ids.length == 0 || ids.contains x)
    rcases ids with _ | ⟨y, ys⟩
    · rfl
    · cases hc : (y :: ys).contains x <;> simp [hc]

theorem not_providerGuard (o : Option (List String)) (sp? : Option String) :
    (!(match o with
       | some ids => decide (ids.length > 0) &&
           (match sp? with
            | some sp => sp == "" || !(ids.contains sp)
            | none => true)
       | none => false)) =
    (match o with
     | some ids => ids.length == 0 ||
         (match sp? with
          | some sp => !(sp == "") && ids.contains sp
          | none => false)
     | none => true) := by
  rcases o with _ | ids
  · rfl
  · show (!(decide (ids.length > 0) &&
        (match sp? with
         | some sp => sp == "" || !(ids.contains sp)
         | none => true))) =
      (ids.length == 0 ||
        (match sp? with
         | some sp => !(sp == "") && ids.contains sp
         | none => false))
    rcases sp? with _ | sp
    · rcases ids with _ | ⟨y, ys⟩
      · rfl
      · simp
    · show (!(decide (ids.length > 0) && (sp == "" || !(ids.contains sp)))) =
        (ids.length == 0 || (!(sp == "") && ids.contains sp))
      rcases ids with _ | ⟨y, ys⟩
      · rfl
      · cases he : sp == "" <;> cases hc : (y :: ys).contains sp <;>
          simp [he, hc]

theorem not_any_not (p : PayloadPattern → Bool) (l : List PayloadPattern) :
    (!(l.any fun x => !(p x))) = l.all p := by
  induction l with
  | nil => rfl
  | cons x xs ih =>
      simp only [List.any_cons, List.all_cons, Bool.not_or, Bool.not_not, ih]

theorem not_patternsGuard (rt : String → String → Bool → Bool)
    (o : Option (List PayloadPattern)) (payload : JsonVal) :
    (!(match o with
       | some pats => decide (pats.length > 0) &&
           pats.any (fun p => !(matchesPayloadPattern rt payload p))
       | none => false)) =
    (match o with
     | some pats => pats.length == 0 ||
         pats.all (fun p => matchesPayloadPattern rt payload p)
     | none => true) := by
  rcases o with _ | pats
  · rfl
  · show (!(decide (pats.length > 0) &&
        pats.any (fun p => !(matchesPayloadPattern rt payload p)))) =
      (pats.length == 0 ||
        pats.all (fun p => matchesPayloadPattern rt payload p))
    rcases pats with _ | ⟨y, ys⟩
    · rfl
    · have h := not_any_not (fun p => matchesPayloadPattern rt payload p) (y :: ys)
      have hlen : (decide ((y :: ys).length > 0)) = true := by simp
      have hz : (((y :: ys).length == 0) : Bool) = false := rfl
      rw [hlen, hz, Bool.true_and, Bool.false_or]
      exact h

theorem doesRuleMatch_eq_and (rt : String → String → Bool → Bool)
    (rule : ApprovalRule) (context : ActionContext) :
    doesRuleMatch rt rule context =
      (agentFilterOk rule context && actionTypeFilterOk rule context &&
       providerFilterOk rule context && patternsFilterOk rt rule context) := by
  have hchain :
      doesRuleMatch rt rule context =
        ((!(match rule.conditions.agent_ids with
            | some ids => decide (ids.length > 0) && !(ids.contains context.agent_id)
            | none => false)) &&
         (!(match rule.conditions.action_types with
            | some ids => decide (ids.length > 0) && !(ids.contains context.action_type)
            | none => false)) &&
         (!(match rule.conditions.service_provider_ids with
            | some ids => decide (ids.length > 0) &&
                (match context.service_provider_id with
                 | some sp => sp == "" || !(ids.contains sp)
                 | none => true)
            | none => false)) &&
         (!(match rule.conditions.payload_patterns with
            | some pats => decide (pats.length > 0) &&
                pats.any (fun p => !(matchesPayloadPattern rt context.action_payload p))
            | none => false))) :=
    ite_chain_four _ _ _ _
  rw [hchain, not_membershipGuard, not_membershipGuard, not_providerGuard,
    not_patternsGuard]
  rfl

/-- C3: active rules of the owner are considered in the total order
`(priority desc, createdAt asc)` — the fetched list is sorted by that order
and is a permutation of the active owner-scoped rules; each rule's four
filter families are tested as one conjunction; the scan returns the first
matching rule without consulting anything after it; and whenever a
priority-10 rule and a priority-5 rule both match, the outcome is the
priority-10 rule's `require_approval`. -/
theorem c3_order_and_first_match (rt : String → String → Bool → Bool) :
    (∀ (db : List ApprovalRule) (ownerId agentId : String),
      List.Sorted ruleOrder (fetchedRules db ownerId agentId) ∧
      (fetchedRules db ownerId agentId).Perm
        (db.filter (fun r => r.owner_id == ownerId && r.is_active &&
          (r.agent_id.isNone || r.agent_id == some agentId)))) ∧
    (∀ (rule : ApprovalRule) (context : ActionContext),
      doesRuleMatch rt rule context =
        (agentFilterOk rule context && actionTypeFilterOk rule context &&
         providerFilterOk rule context && patternsFilterOk rt rule context)) ∧
    (∀ (rule : ApprovalRule) (rest other : List ApprovalRule)
        (context : ActionContext),
      doesRuleMatch rt rule context = true →
        scanRules rt (rule :: rest) context = ⟨rule.require_approval, some rule⟩ ∧
        scanRules rt (rule :: rest) context = scanRules rt (rule :: other) context) ∧
    (∀ (a b : ApprovalRule) (ownerId : String) (context : ActionContext)
        (db : List ApprovalRule),
      (db = [a, b] ∨ db = [b, a]) →
      a.priority = 10 → b.priority = 5 →
      a.owner_id = ownerId → b.owner_id = ownerId →
      a.is_active = true → b.is_active = true →
      a.agent_id = none → b.agent_id = none →
      doesRuleMatch rt a context = true → doesRuleMatch rt b context = true →
      evaluateRules rt false db ownerId context =
        ⟨a.require_approval, some a⟩) := by
  refine ⟨?_, doesRuleMatch_eq_and rt, ?_, ?_⟩
  · intro db ownerId agentId
    exact ⟨List.sorted_insertionSort ruleOrder _,
           List.perm_insertionSort ruleOrder _⟩
  · intro rule rest other context hm
    constructor
    · simp [scanRules, hm]
    · simp [scanRules, hm]
  · intro a b ownerId context db hdb hpa hpb haow hbow haact hbact haag hbag hma hmb
    have hfa : (a.owner_id == ownerId && a.is_active &&
        (a.agent_id.isNone || a.agent_id == some context.agent_id)) = true := by
      simp [haow, haact, haag]
    have hfb : (b.owner_id == ownerId && b.is_active &&
        (b.agent_id.isNone || b.agent_id == some context.agent_id)) = true := by
      simp [hbow, hbact, hbag]
    have hab : ruleOrder a b := Or.inl (by rw [hpa, hpb]; norm_num)
    have hba : ¬ ruleOrder b a := by
      unfold ruleOrder
      rw [hpa, hpb]
      intro h
      rcases h with h | ⟨h, _⟩ <;> omega
    have hsort : fetchedRules db ownerId context.agent_id = [a, b] := by
      rcases hdb with rfl | rfl
      · unfold fetchedRules
        simp only [List.filter, hfa, hfb]
        simp only [List.insertionSort, List.orderedInsert, if_pos hab]
      · unfold fetchedRules
        simp only [List.filter, hfa, hfb]
        simp only [List.insertionSort, List.orderedInsert, if_neg hba]
    unfold evaluateRules
    rw [hsort]
    simp [scanRules, hma]

def c3RuleA : ApprovalRule :=
  { id := "rA", owner_id := "ow", priority := 10, require_approval := true,
    created_at := 50 }

def c3RuleB : ApprovalRule :=
  { id := "rB", owner_id := "ow", priority := 5, require_approval := false,
    created_at := 1 }

def c3Ctx : ActionContext :=
  { agent_id := "ag", action_type := "gmail.send",
    action_payload := JsonVal.obj [("to", JsonVal.str "x@external.com")] }

/-- C3 witness: both rules match, the priority-10 rule wins even when
stored after the priority-5 rule. -/
theorem c3_witness :
    evaluateRules regexStub false [c3RuleB, c3RuleA] "ow" c3Ctx =
      ⟨true, some c3RuleA⟩ :=
  (c3_order_and_first_match regexStub).2.2.2 c3RuleA c3RuleB "ow" c3Ctx
    [c3RuleB, c3RuleA] (Or.inr rfl) rfl rfl rfl rfl rfl rfl rfl rfl
    (by decide) (by decide)

end AuthForAgents
